import Mathlib

/-!
Verification of the observation simulation pipeline of
`Tudat/Astrodynamics/ObservationModels/simulateObservations.h`.

The C++ code is shallowly embedded:
* `double` scalars and times become `ℤ` (exact arithmetic: the pipeline only
  adds and subtracts observation values and passes times through unchanged,
  so any commutative-ring carrier represents the algorithm exactly, and `ℤ`
  keeps every concrete run kernel-computable);
* `Eigen::Matrix<Scalar, Dynamic, 1>` vectors become `List ℤ`;
* `std::map` becomes an association list `List (key × value)` holding the
  entries in ascending key order (the iteration order of `std::map`), and
  `std::map::at` / insertion during in-order iteration become association-list
  lookup / `List.map`;
* functions that can throw return `Except SimError _`;
* enumeration-typed identifiers (`ObservableType`, `LinkEndType`) and the
  map key `LinkEnds` become `ℕ`.

Collaborators declared in `observationSimulator.h` (not part of the analysed
sources) are modelled from the specification and marked as such in their
doc comments.
-/

/-- Observation scalar type (`double` in the C++ source). -/
abbrev ObservationScalarType := ℤ

/-- Observation time type (`double` in the C++ source). -/
abbrev TimeType := ℤ

/-- `ObservableType` enumeration, embedded as `ℕ`. -/
abbrev ObservableType := ℕ

/-- `LinkEnds` (ordered named set of endpoints), embedded opaquely as `ℕ`
since the pipeline only uses it as a map key with equality/ordering. -/
abbrev LinkEnds := ℕ

/-- `LinkEndType` enumeration, embedded as `ℕ`; the C++ default-constructed
value is `0`. -/
abbrev LinkEndType := ℕ

/-- The distinct failure modes of the pipeline.  Each constructor corresponds
to one `throw` site (or one fatal Eigen size assertion) in the C++ source. -/
inductive SimError where
  /-- `std::map::at` failure on the simulator map
  (`observationSimulators.at( ... )`), the spec's `MissingSimulatorError`. -/
  | missingSimulator
  /-- "Error when simulating single observation set, Observation simulator is
  NULL" (`simulateObservations.h:113`). -/
  | nullSimulator
  /-- The spec's `NullModelError`: the simulator registry holds no observation
  model for the requested `LinkEnds`. -/
  | nullModel
  /-- "Error, simulation of observations not yet implemented for size ..."
  (`simulateObservations.h:266`), the spec's `UnsupportedDimensionError`. -/
  | unsupportedDimension (observationSize : Int)
  /-- "Error when simulating observation: dynamic case to size N is NULL"
  (`simulateObservations.h:220/238/256`). -/
  | dynamicCastNull (observationSize : Int)
  /-- "Error when adding noise to observations, input data is inconsistent"
  (`simulateObservations.h:328`), the spec's `InconsistentSampleCountError`. -/
  | inconsistentSampleCount
  /-- "Error when adding noise to observations, noise size is inconsistent"
  (`simulateObservations.h:343`), the spec's `InconsistentNoiseSizeError`. -/
  | inconsistentNoiseSize
  /-- Failure to obtain a noise entry for an observable type in the
  per-`ObservableType` overloads (`noiseFunctions.at( ... )` at
  `simulateObservations.h:442` and the explicit throw at line 444), the
  spec's `MissingObservableNoiseError`. -/
  | missingObservableNoise
  /-- `std::map::at` failure on the canonical noise-function double map
  (`noiseFunctions.at( type ).at( linkEnds )`, `simulateObservations.h:333`). -/
  | missingNoiseEntry
  /-- Eigen size assertion: `segment( i*d, d ) += v` with `v.rows() ≠ d`
  (or an out-of-range segment) aborts rather than throwing. -/
  | eigenSizeMismatch
  deriving DecidableEq

/-- `ObservationSimulationTimeSettings< TimeType >` and its derived classes,
embedded as a sum type.  `tabulated` is
`TabulatedObservationSimulationTimeSettings`; `base` stands for a settings
object whose dynamic type is not recognized by the single-set simulator
(the base class itself, or a future derived variant). -/
inductive ObservationSimulationTimeSettings where
  | tabulated (linkEndType : LinkEndType) (simulationTimes : List TimeType)
  | base (linkEndType : LinkEndType)
  deriving DecidableEq

/-- `linkEndType_`, the data member shared by all settings variants. -/
def ObservationSimulationTimeSettings.linkEndType :
    ObservationSimulationTimeSettings → LinkEndType
  | .tabulated l _ => l
  | .base l => l

/-- Modelled from the spec: `ObservationModel` (declared in
`observationSimulator.h`, not among the analysed sources).  Per spec §3 it is
a capability that, "given a time and a LinkEndType, produces a measurement
vector of the type's fixed dimensionality"; the C++ return type
`Eigen::Matrix< Scalar, ObservationSize, 1 >` statically fixes the output
length, which the proof field `computeSize` records. -/
structure ObservationModel where
  observationSize : ℕ
  computeObservations : TimeType → LinkEndType → List ObservationScalarType
  computeSize : ∀ t l, (computeObservations t l).length = observationSize

/-- First value for a key in an association list, i.e. `std::map::find`
combined with the uniqueness of `std::map` keys. -/
def lookupKey {α : Type} (k : ℕ) : List (ℕ × α) → Option α
  | [] => none
  | p :: rest => if p.1 = k then some p.2 else lookupKey k rest

/-- Modelled from the spec: `ObservationSimulator< ObservationSize, ... >`
(declared in `observationSimulator.h`, not among the analysed sources).
Per spec §3 it is "a factory/registry mapping a LinkEnds value to the
ObservationModel for that geometry, for one ObservableType; also reports the
dimensionality for a given LinkEnds".  `observationSize` is the template
parameter of the concrete derived class (the target of the `dynamic_cast` in
`simulateObservations`); `reportedSize` is `getObservationSize`, whose value
the aggregator inspects before casting. -/
structure ObservationSimulator where
  observationSize : ℕ
  observationModels : List (LinkEnds × ObservationModel)
  modelsSize : ∀ p ∈ observationModels, p.2.observationSize = observationSize
  reportedSize : LinkEnds → Int

/-- Modelled from the spec: `ObservationSimulator::getObservationModel`
(not among the analysed sources).  Per spec §4.2 the registry resolution
"fails with `NullModelError` if no model is registered for that LinkEnds
(simulator returns no model)", which the embedding renders by returning
`none` here and raising `SimError.nullModel` at the call site. -/
def ObservationSimulator.getObservationModel (simulator : ObservationSimulator)
    (linkEnds : LinkEnds) : Option ObservationModel :=
  lookupKey linkEnds simulator.observationModels

/-- The per-pair result
`std::pair< Eigen::Matrix< Scalar, Dynamic, 1 >, std::pair< std::vector< TimeType >, LinkEndType > >`
(the spec's `ObservationSet`), flattened into a record. -/
structure ObservationSet where
  values : List ObservationScalarType
  times : List TimeType
  linkEndType : LinkEndType
  deriving DecidableEq

/-- Nested map `ObservableType → LinkEnds → ObservationSet`, the aggregate
result type of the pipeline. -/
abbrev ObservationsMap := List (ObservableType × List (LinkEnds × ObservationSet))

/-- Nested map of settings objects, the first argument of the aggregating
simulator. -/
abbrev SettingsMap :=
  List (ObservableType × List (LinkEnds × ObservationSimulationTimeSettings))

/-- Map of observation simulators per observable type
(`std::map< ObservableType, boost::shared_ptr< ObservationSimulatorBase > >`). -/
abbrev SimulatorMap := List (ObservableType × ObservationSimulator)

/-- `boost::function< Eigen::VectorXd( const double ) >`. -/
abbrev NoiseFunction := TimeType → List ObservationScalarType

/-- `boost::function< double( const double ) >`. -/
abbrev ScalarNoiseFunction := TimeType → ObservationScalarType

/-- Canonical noise specification, one vector-valued function per
(observable type, link ends) pair. -/
abbrev NoiseFunctionMap := List (ObservableType × List (LinkEnds × NoiseFunction))

/-- Modelled from the spec:
`simulateObservationsWithCheckAndLinkEndIdOutput` (declared outside the
analysed sources).  Per spec §4.2 it evaluates the model "at every time in its
list, in list order, using the settings' reference LinkEndType", concatenates
the resulting vectors in the same order, and copies the time list and
reference type through unchanged. -/
def simulateObservationsWithCheckAndLinkEndIdOutput
    (simulationTimes : List TimeType) (observationModel : ObservationModel)
    (linkEndType : LinkEndType) : ObservationSet :=
  { values :=
      (simulationTimes.map
        (fun t => observationModel.computeObservations t linkEndType)).flatten
    times := simulationTimes
    linkEndType := linkEndType }

/-- `simulateSingleObservationSet` (model overload),
`simulateObservations.h:67-92`: dispatch on the dynamic type of the settings
object; an unrecognized variant leaves the default-constructed (empty) result
untouched. -/
def simulateSingleObservationSet
    (observationsToSimulate : ObservationSimulationTimeSettings)
    (observationModel : ObservationModel) : ObservationSet :=
  match observationsToSimulate with
  | .tabulated linkEndType simulationTimes =>
      simulateObservationsWithCheckAndLinkEndIdOutput
        simulationTimes observationModel linkEndType
  | .base _ => { values := [], times := [], linkEndType := 0 }

/-- `simulateSingleObservationSet` (simulator overload),
`simulateObservations.h:104-118`: checks the simulator pointer for null, then
resolves the model from the registry (which fails when the `LinkEnds` has no
registered model) before any model evaluation. -/
def simulateSingleObservationSetFromSimulator
    (observationsToSimulate : ObservationSimulationTimeSettings)
    (observationSimulator : Option ObservationSimulator)
    (linkEnds : LinkEnds) : Except SimError ObservationSet :=
  match observationSimulator with
  | none => .error .nullSimulator
  | some simulator =>
    match simulator.getObservationModel linkEnds with
    | none => .error .nullModel
    | some observationModel =>
        .ok (simulateSingleObservationSet observationsToSimulate observationModel)

/-- `createObservationSimulationTimeSettingsMap`,
`simulateObservations.h:127-152`: wraps each `(times, LinkEndType)` pair into
a `TabulatedObservationSimulationTimeSettings` object, preserving the nested
key structure. -/
def createObservationSimulationTimeSettingsMap
    (originalMap : List (ObservableType ×
      List (LinkEnds × (List TimeType × LinkEndType)))) : SettingsMap :=
  originalMap.map (fun p =>
    (p.1, p.2.map (fun q => (q.1, .tabulated q.2.2 q.2.1))))

/-- Effectful map over the entries of a `std::map`, in iteration (key) order,
keeping each key: the shape of every aggregation loop in the source.  The
first exception thrown aborts the whole traversal. -/
def mapPairsExcept {α β : Type} (h : ℕ → α → Except SimError β) :
    List (ℕ × α) → Except SimError (List (ℕ × β))
  | [] => .ok []
  | p :: rest =>
    match h p.1 p.2 with
    | .error e => .error e
    | .ok b =>
      match mapPairsExcept h rest with
      | .error e => .error e
      | .ok others => .ok ((p.1, b) :: others)

/-- Body of the double loop of the aggregating `simulateObservations`
(`simulateObservations.h:207-269`): resolve the simulator from the map
(`std::map::at`), read its reported size, dispatch on sizes 1, 2, 3 with a
`dynamic_cast` to the size-specialized simulator type, and fail fatally on
any other size. -/
def simulateObservationsPair (observationSimulators : SimulatorMap)
    (observableType : ObservableType) (linkEnds : LinkEnds)
    (observationsToSimulate : ObservationSimulationTimeSettings) :
    Except SimError ObservationSet :=
  match lookupKey observableType observationSimulators with
  | none => .error .missingSimulator
  | some simulator =>
    let observationSize : Int := simulator.reportedSize linkEnds
    if observationSize = 1 then
      if simulator.observationSize = 1 then
        simulateSingleObservationSetFromSimulator
          observationsToSimulate (some simulator) linkEnds
      else .error (.dynamicCastNull 1)
    else if observationSize = 2 then
      if simulator.observationSize = 2 then
        simulateSingleObservationSetFromSimulator
          observationsToSimulate (some simulator) linkEnds
      else .error (.dynamicCastNull 2)
    else if observationSize = 3 then
      if simulator.observationSize = 3 then
        simulateSingleObservationSetFromSimulator
          observationsToSimulate (some simulator) linkEnds
      else .error (.dynamicCastNull 3)
    else .error (.unsupportedDimension observationSize)

/-- `simulateObservations` (settings overload),
`simulateObservations.h:184-273`: iterate over all observables and their link
ends and store each single-set result under the same keys. -/
def simulateObservations (observationsToSimulate : SettingsMap)
    (observationSimulators : SimulatorMap) : Except SimError ObservationsMap :=
  mapPairsExcept (fun observableType inner =>
    mapPairsExcept (fun linkEnds settings =>
      simulateObservationsPair observationSimulators observableType
        linkEnds settings) inner) observationsToSimulate

/-- `simulateObservations` (flat time-table overload),
`simulateObservations.h:163-174`: convert the plain time lists into tabulated
settings objects and delegate. -/
def simulateObservationsFromTimes
    (observationsToSimulate : List (ObservableType ×
      List (LinkEnds × (List TimeType × LinkEndType))))
    (observationSimulators : SimulatorMap) : Except SimError ObservationsMap :=
  simulateObservations
    (createObservationSimulationTimeSettingsMap observationsToSimulate)
    observationSimulators

/-- `noisyObservations.segment( start, len ) += noise` on a dynamically sized
Eigen vector: defined exactly when the added vector has length `len` and the
segment lies inside the vector; otherwise Eigen's size assertion aborts the
program, which the embedding renders as `none`. -/
def addSegment (v : List ObservationScalarType) (start len : ℕ)
    (noise : List ObservationScalarType) : Option (List ObservationScalarType) :=
  if noise.length = len ∧ start + len ≤ v.length then
    some (v.take start ++
      List.zipWith (· + ·) ((v.drop start).take len) noise ++
      v.drop (start + len))
  else none

/-- The sample loop of the canonical `simulateObservationsWithNoise`
(`simulateObservations.h:336-350`): for each time, on the first sample only
(`i == 0`) check that the noise vector has the observable's size, then add the
noise vector into the `i`-th size-`d` block of the value vector. -/
def addNoiseLoop (d : ℕ) (noiseFunction : NoiseFunction) :
    List TimeType → ℕ → List ObservationScalarType →
    Except SimError (List ObservationScalarType)
  | [], _, v => .ok v
  | t :: rest, i, v =>
    if i = 0 ∧ (noiseFunction t).length ≠ d then .error .inconsistentNoiseSize
    else
      match addSegment v (i * d) d (noiseFunction t) with
      | none => .error .eigenSizeMismatch
      | some v2 => addNoiseLoop d noiseFunction rest (i + 1) v2

/-- Per-pair body of the canonical `simulateObservationsWithNoise`
(`simulateObservations.h:318-353`): check
`times.size() != values.rows() / d` (C++ truncating integer division; `d = 0`
would be undefined behaviour in C++ and the catalog only produces 1, 2 or 3),
resolve the pair's noise function with `std::map::at` twice, then run the
sample loop; times and reference link end type are carried through from the
noiseless set. -/
def addObservationNoise (d : ℕ) (noiseFunctions : NoiseFunctionMap)
    (observableType : ObservableType) (linkEnds : LinkEnds)
    (nominalSet : ObservationSet) : Except SimError ObservationSet :=
  if nominalSet.times.length ≠ nominalSet.values.length / d then
    .error .inconsistentSampleCount
  else
    match lookupKey observableType noiseFunctions with
    | none => .error .missingNoiseEntry
    | some innerMap =>
      match lookupKey linkEnds innerMap with
      | none => .error .missingNoiseEntry
      | some noiseFunction =>
        match addNoiseLoop d noiseFunction nominalSet.times 0 nominalSet.values with
        | .error e => .error e
        | .ok noisyValues =>
          .ok { values := noisyValues
                times := nominalSet.times
                linkEndType := nominalSet.linkEndType }

/-- The noise-adding double loop of the canonical
`simulateObservationsWithNoise` (`simulateObservations.h:307-356`), applied to
the noise-free aggregate result; `getObservableSize` is the catalog lookup of
the observable's fixed dimensionality (modelled from the spec as a parameter,
since the catalog table is not among the analysed sources). -/
def applyNoise (getObservableSize : ObservableType → ℕ)
    (noiseFunctions : NoiseFunctionMap) (noiseFreeObservations : ObservationsMap) :
    Except SimError ObservationsMap :=
  mapPairsExcept (fun observableType inner =>
    mapPairsExcept (fun linkEnds nominalSet =>
      addObservationNoise (getObservableSize observableType) noiseFunctions
        observableType linkEnds nominalSet) inner) noiseFreeObservations

/-- Canonical `simulateObservationsWithNoise`,
`simulateObservations.h:285-358`: simulate noise-free observations, then add
sampled noise per (observable type, link ends) pair. -/
def simulateObservationsWithNoise (getObservableSize : ObservableType → ℕ)
    (observationsToSimulate : SettingsMap)
    (observationSimulators : SimulatorMap)
    (noiseFunctions : NoiseFunctionMap) : Except SimError ObservationsMap :=
  match simulateObservations observationsToSimulate observationSimulators with
  | .error e => .error e
  | .ok noiseFreeObservationsList =>
      applyNoise getObservableSize noiseFunctions noiseFreeObservationsList

/-- `getIdenticallyAndIndependentlyDistributedNoise`,
`simulateObservations.h:360-371`: fill a vector of the observable's size by
calling the scalar noise function once per entry (for the pure functions of
this embedding, all entries coincide). -/
def getIdenticallyAndIndependentlyDistributedNoise
    (noiseFunction : ScalarNoiseFunction) (observationSize : ℕ)
    (evaluationTime : TimeType) : List ObservationScalarType :=
  (List.range observationSize).map (fun _ => noiseFunction evaluationTime)

/-- `simulateObservationsWithNoise` (per-pair scalar overload),
`simulateObservations.h:385-412`: broadcast each scalar noise function over
the observable's catalog size, preserving the noise map's key structure, then
delegate to the canonical overload. -/
def simulateObservationsWithNoisePerPairScalar
    (getObservableSize : ObservableType → ℕ)
    (observationsToSimulate : SettingsMap)
    (observationSimulators : SimulatorMap)
    (noiseFunctions : List (ObservableType ×
      List (LinkEnds × ScalarNoiseFunction))) : Except SimError ObservationsMap :=
  simulateObservationsWithNoise getObservableSize observationsToSimulate
    observationSimulators
    (noiseFunctions.map (fun p =>
      (p.1, p.2.map (fun q =>
        (q.1, getIdenticallyAndIndependentlyDistributedNoise q.2
          (getObservableSize p.1))))))

/-- `simulateObservationsWithNoise` (per-type vector overload),
`simulateObservations.h:424-458`: for every observable type of the
time-settings map, resolve that type's noise function (`std::map::at`, whose
failure on an absent key — or, in C++, an empty `boost::function` value — is
the spec's `MissingObservableNoiseError`) and broadcast it over all the
type's link ends; then delegate to the canonical overload. -/
def simulateObservationsWithNoisePerType
    (getObservableSize : ObservableType → ℕ)
    (observationsToSimulate : SettingsMap)
    (observationSimulators : SimulatorMap)
    (noiseFunctions : List (ObservableType × NoiseFunction)) :
    Except SimError ObservationsMap :=
  match mapPairsExcept (fun observableType inner =>
      match lookupKey observableType noiseFunctions with
      | none => .error .missingObservableNoise
      | some noiseFunction =>
          .ok (inner.map (fun q => (q.1, noiseFunction))))
      observationsToSimulate with
  | .error e => .error e
  | .ok fullNoiseFunctions =>
      simulateObservationsWithNoise getObservableSize observationsToSimulate
        observationSimulators fullNoiseFunctions

/-- `simulateObservationsWithNoise` (per-type scalar overload),
`simulateObservations.h:472-493`: broadcast each scalar noise function over
the observable's catalog size and delegate to the per-type vector overload. -/
def simulateObservationsWithNoisePerTypeScalar
    (getObservableSize : ObservableType → ℕ)
    (observationsToSimulate : SettingsMap)
    (observationSimulators : SimulatorMap)
    (noiseFunctions : List (ObservableType × ScalarNoiseFunction)) :
    Except SimError ObservationsMap :=
  simulateObservationsWithNoisePerType getObservableSize observationsToSimulate
    observationSimulators
    (noiseFunctions.map (fun p =>
      (p.1, getIdenticallyAndIndependentlyDistributedNoise p.2
        (getObservableSize p.1))))

/-- `simulateObservationsWithNoise` (global scalar overload),
`simulateObservations.h:505-526`: use the single scalar noise function for
every observable type of the time-settings map and delegate to the per-type
scalar overload. -/
def simulateObservationsWithNoiseGlobal
    (getObservableSize : ObservableType → ℕ)
    (observationsToSimulate : SettingsMap)
    (observationSimulators : SimulatorMap)
    (noiseFunction : ScalarNoiseFunction) : Except SimError ObservationsMap :=
  simulateObservationsWithNoisePerTypeScalar getObservableSize
    observationsToSimulate observationSimulators
    (observationsToSimulate.map (fun p => (p.1, noiseFunction)))

/-- The nested key structure of a two-level map: every outer key with its list
of inner keys, in order. -/
def keyStructure {α : Type} (m : List (ℕ × List (ℕ × α))) : List (ℕ × List ℕ) :=
  m.map (fun p => (p.1, p.2.map Prod.fst))

/-- The `i`-th length-`d` block of a stacked value vector. -/
def valueBlock (v : List ObservationScalarType) (i d : ℕ) :
    List ObservationScalarType :=
  (v.drop (i * d)).take d

/-- Two-level `std::map::at`: the canonical noise function of one pair. -/
def lookupPair {α : Type} (m : List (ℕ × List (ℕ × α))) (k1 k2 : ℕ) : Option α :=
  match lookupKey k1 m with
  | none => none
  | some inner => lookupKey k2 inner

/-- The constant-zero vector noise map of the catalog dimensionality, one
entry per (observable type, link ends) pair of a settings map: the canonical
entry point's zero-noise input. -/
def zeroVectorNoiseFunctions (getObservableSize : ObservableType → ℕ)
    (observationsToSimulate : SettingsMap) : NoiseFunctionMap :=
  observationsToSimulate.map (fun p =>
    (p.1, p.2.map (fun q =>
      (q.1, fun _ => List.replicate (getObservableSize p.1) (0 : ℤ)))))

/-- The constant-zero scalar noise map with one entry per
(observable type, link ends) pair of a settings map. -/
def zeroScalarPairNoiseFunctions (observationsToSimulate : SettingsMap) :
    List (ObservableType × List (LinkEnds × ScalarNoiseFunction)) :=
  observationsToSimulate.map (fun p =>
    (p.1, p.2.map (fun q => (q.1, fun _ => (0 : ℤ)))))

/-- The constant-zero scalar noise map with one entry per observable type of
a settings map. -/
def zeroScalarTypeNoiseFunctions (observationsToSimulate : SettingsMap) :
    List (ObservableType × ScalarNoiseFunction) :=
  observationsToSimulate.map (fun p => (p.1, fun _ => (0 : ℤ)))

/-- Concrete size-1 model returning `time * 2` (the spec §8 scenario model). -/
def sampleModel : ObservationModel :=
  { observationSize := 1
    computeObservations := fun t _ => [2 * t]
    computeSize := fun _ _ => rfl }

/-- Concrete size-3 model returning a fixed triple. -/
def tripleModel : ObservationModel :=
  { observationSize := 3
    computeObservations := fun _ _ => [1, 2, 3]
    computeSize := fun _ _ => rfl }

/-- Concrete size-1 model returning a fixed value. -/
def constModel : ObservationModel :=
  { observationSize := 1
    computeObservations := fun _ _ => [7]
    computeSize := fun _ _ => rfl }

/-- Size-1 simulator holding `sampleModel` for link ends `0`. -/
def sampleSimulator : ObservationSimulator :=
  { observationSize := 1
    observationModels := [(0, sampleModel)]
    modelsSize := by intro p hp; simp only [List.mem_singleton] at hp; subst hp; rfl
    reportedSize := fun _ => 1 }

/-- Size-3 simulator holding `tripleModel` for link ends `0`. -/
def tripleSimulator : ObservationSimulator :=
  { observationSize := 3
    observationModels := [(0, tripleModel)]
    modelsSize := by intro p hp; simp only [List.mem_singleton] at hp; subst hp; rfl
    reportedSize := fun _ => 3 }

/-- Size-1 simulator holding `constModel` for link ends `0`. -/
def constSimulator : ObservationSimulator :=
  { observationSize := 1
    observationModels := [(0, constModel)]
    modelsSize := by intro p hp; simp only [List.mem_singleton] at hp; subst hp; rfl
    reportedSize := fun _ => 1 }

/-- A simulator reporting the unsupported dimensionality `4`. -/
def sizeFourSimulator : ObservationSimulator :=
  { observationSize := 1
    observationModels := [(0, constModel)]
    modelsSize := by intro p hp; simp only [List.mem_singleton] at hp; subst hp; rfl
    reportedSize := fun _ => 4 }

/-- A simulator with an empty model registry. -/
def emptySimulator : ObservationSimulator :=
  { observationSize := 1
    observationModels := []
    modelsSize := by intro p hp; cases hp
    reportedSize := fun _ => 1 }

/-- One observable, one link ends, tabulated times `[0, 1, 2]`
(the spec §8 scenario). -/
def sampleSettings : SettingsMap := [(0, [(0, .tabulated 0 [0, 1, 2])])]

/-- One observable, one link ends, a single tabulated time. -/
def singleTimeSettings : SettingsMap := [(0, [(0, .tabulated 0 [0])])]

def sampleSimulators : SimulatorMap := [(0, sampleSimulator)]

def tripleSimulators : SimulatorMap := [(0, tripleSimulator)]

def constSimulators : SimulatorMap := [(0, constSimulator)]

/-- Canonical noise map adding `time + 1` to the single channel. -/
def sampleNoise : NoiseFunctionMap := [(0, [(0, fun t => [t + 1])])]

/-- Canonical noise map with two channels, for a catalog dimensionality 2. -/
def twoChannelNoise : NoiseFunctionMap := [(0, [(0, fun _ => [5, 7])])]

/-- A size-1 noise function echoing the time. -/
def echoNoiseFunction : NoiseFunction := fun t => [t]

/-- Canonical noise map holding `echoNoiseFunction`. -/
def echoNoise : NoiseFunctionMap := [(0, [(0, echoNoiseFunction)])]

/-- Expected noiseless result of the spec §8 scenario. -/
def sampleNominal : ObservationsMap :=
  [(0, [(0, { values := [0, 2, 4], times := [0, 1, 2], linkEndType := 0 })])]

/-- Expected noisy result of the spec §8 scenario under `sampleNoise`. -/
def sampleNoisy : ObservationsMap :=
  [(0, [(0, { values := [1, 4, 7], times := [0, 1, 2], linkEndType := 0 })])]

/-- A two-sample size-1 observation set. -/
def twoSampleSet : ObservationSet :=
  { values := [5, 6], times := [10, 11], linkEndType := 0 }

/-- The single observation set inside `sampleNoisy`. -/
def sampleNoisySet : ObservationSet :=
  { values := [1, 4, 7], times := [0, 1, 2], linkEndType := 0 }

/-- Noiseless result of `singleTimeSettings` under `tripleSimulators`. -/
def tripleNominal : ObservationsMap :=
  [(0, [(0, { values := [1, 2, 3], times := [0], linkEndType := 0 })])]

/-- The same result after two-channel noise `[5, 7]` is added to the first
block of two scalars under a catalog dimensionality of 2. -/
def tripleNoisy : ObservationsMap :=
  [(0, [(0, { values := [6, 9, 3], times := [0], linkEndType := 0 })])]

/-- Noiseless result of `singleTimeSettings` under `constSimulators`. -/
def constNominal : ObservationsMap :=
  [(0, [(0, { values := [7], times := [0], linkEndType := 0 })])]

instance {ε α : Type} [DecidableEq ε] [DecidableEq α] : DecidableEq (Except ε α) := fun x y =>
  match x, y with
  | .error a, .error b =>
    if h : a = b then isTrue (by rw [h])
    else isFalse (fun hc => h (Except.error.inj hc))
  | .error _, .ok _ => isFalse (fun hc => Except.noConfusion hc)
  | .ok _, .error _ => isFalse (fun hc => Except.noConfusion hc)
  | .ok a, .ok b =>
    if h : a = b then isTrue (by rw [h])
    else isFalse (fun hc => h (Except.ok.inj hc))

/-- Looking a key up in a per-entry transformed association list transforms
the looked-up value. -/
theorem lookupKey_map_value {α β : Type} (g : ℕ → α → β) :
    ∀ (l : List (ℕ × α)) (k : ℕ),
      lookupKey k (l.map (fun p => (p.1, g p.1 p.2))) =
        Option.map (g k) (lookupKey k l) := by
  intro l k
  induction l with
  | nil => rfl
  | cons p rest ih =>
    simp only [List.map_cons, lookupKey]
    by_cases h : p.1 = k
    · subst h
      simp
    · simp [h, ih]

/-- A key present among an association list's keys has a value. -/
theorem lookupKey_isSome_of_mem_keys {α : Type} :
    ∀ (l : List (ℕ × α)) (k : ℕ), k ∈ l.map Prod.fst →
      ∃ v, lookupKey k l = some v := by
  intro l k hk
  induction l with
  | nil => simp at hk
  | cons p rest ih =>
    simp only [lookupKey]
    by_cases h : p.1 = k
    · exact ⟨p.2, by simp [h]⟩
    · simp only [List.map_cons, List.mem_cons] at hk
      rcases hk with hk | hk
      · exact absurd hk.symm h
      · simpa [h] using ih hk

/-- Lookup in an association list whose values depend only on the key. -/
theorem lookupKey_keyed {α β : Type} (g : ℕ → β) :
    ∀ (l : List (ℕ × α)) (k : ℕ), k ∈ l.map Prod.fst →
      lookupKey k (l.map (fun p => (p.1, g p.1))) = some (g k) := by
  intro l k hk
  obtain ⟨v, hv⟩ := lookupKey_isSome_of_mem_keys l k hk
  have := lookupKey_map_value (fun k _ => g k) l k
  rw [hv] at this
  exact this

/-- With `std::map`-unique keys, membership determines lookup. -/
theorem lookupKey_of_mem {α : Type} :
    ∀ (l : List (ℕ × α)) (k : ℕ) (v : α), (l.map Prod.fst).Nodup →
      (k, v) ∈ l → lookupKey k l = some v := by
  intro l k v hnd hm
  induction l with
  | nil => simp at hm
  | cons p rest ih =>
    simp only [List.map_cons, List.nodup_cons] at hnd
    rcases List.mem_cons.mp hm with hm | hm
    · subst hm
      simp [lookupKey]
    · have hne : p.1 ≠ k := by
        intro h
        exact hnd.1 (h ▸ (List.mem_map.mpr ⟨(k, v), hm, rfl⟩))
      simpa [lookupKey, hne] using ih hnd.2 hm

/-- A successful lookup comes from an entry of the list. -/
theorem mem_of_lookupKey {α : Type} :
    ∀ (l : List (ℕ × α)) (k : ℕ) (v : α), lookupKey k l = some v → (k, v) ∈ l := by
  intro l k v h
  induction l with
  | nil => simp [lookupKey] at h
  | cons p rest ih =>
    obtain ⟨pk, pv⟩ := p
    simp only [lookupKey] at h
    by_cases hp : pk = k
    · rw [if_pos hp] at h
      obtain rfl : pv = v := Option.some.inj h
      subst hp
      exact List.mem_cons_self (pk, pv) rest
    · rw [if_neg hp] at h
      exact List.mem_cons_of_mem _ (ih h)

/-- A successful `mapPairsExcept` keeps the key list unchanged. -/
theorem mapPairsExcept_fst {α β : Type} (h : ℕ → α → Except SimError β) :
    ∀ (l : List (ℕ × α)) (l2 : List (ℕ × β)),
      mapPairsExcept h l = .ok l2 → l2.map Prod.fst = l.map Prod.fst := by
  intro l
  induction l with
  | nil =>
    intro l2 hok
    simp only [mapPairsExcept] at hok
    cases hok
    rfl
  | cons p rest ih =>
    intro l2 hok
    simp only [mapPairsExcept] at hok
    cases hb : h p.1 p.2 with
    | error e => rw [hb] at hok; cases hok
    | ok b =>
      rw [hb] at hok
      cases hr : mapPairsExcept h rest with
      | error e => rw [hr] at hok; cases hok
      | ok others =>
        rw [hr] at hok
        obtain rfl : (p.1, b) :: others = l2 := Except.ok.inj hok
        simp [ih others hr]

/-- Tracing a successful `mapPairsExcept` result backwards through a lookup. -/
theorem mapPairsExcept_lookup {α β : Type} (h : ℕ → α → Except SimError β) :
    ∀ (l : List (ℕ × α)) (l2 : List (ℕ × β)) (k : ℕ) (b : β),
      mapPairsExcept h l = .ok l2 → lookupKey k l2 = some b →
        ∃ a, lookupKey k l = some a ∧ h k a = .ok b := by
  intro l
  induction l with
  | nil =>
    intro l2 k b hok hl
    simp only [mapPairsExcept] at hok
    cases hok
    simp [lookupKey] at hl
  | cons p rest ih =>
    intro l2 k b hok hl
    simp only [mapPairsExcept] at hok
    cases hb : h p.1 p.2 with
    | error e => rw [hb] at hok; cases hok
    | ok b0 =>
      rw [hb] at hok
      cases hr : mapPairsExcept h rest with
      | error e => rw [hr] at hok; cases hok
      | ok others =>
        rw [hr] at hok
        obtain rfl : (p.1, b0) :: others = l2 := Except.ok.inj hok
        simp only [lookupKey] at hl ⊢
        by_cases hp : p.1 = k
        · rw [if_pos hp] at hl ⊢
          obtain rfl : b0 = b := Option.some.inj hl
          exact ⟨p.2, rfl, hp ▸ hb⟩
        · rw [if_neg hp] at hl ⊢
          exact ih others k b hr hl

/-- `mapPairsExcept` of a body that succeeds identically on every entry. -/
theorem mapPairsExcept_id_ok {α : Type} (h : ℕ → α → Except SimError α) :
    ∀ (l : List (ℕ × α)), (∀ p ∈ l, h p.1 p.2 = .ok p.2) →
      mapPairsExcept h l = .ok l := by
  intro l hall
  induction l with
  | nil => rfl
  | cons p rest ih =>
    simp only [mapPairsExcept]
    rw [hall p (List.mem_cons_self p rest)]
    rw [ih (fun q hq => hall q (List.mem_cons_of_mem p hq))]

/-- A successful `mapPairsExcept` succeeds on every entry. -/
theorem mapPairsExcept_mem_ok {α β : Type} (h : ℕ → α → Except SimError β) :
    ∀ (l : List (ℕ × α)) (l2 : List (ℕ × β)),
      mapPairsExcept h l = .ok l2 → ∀ p ∈ l, ∃ b, h p.1 p.2 = .ok b := by
  intro l
  induction l with
  | nil => intro l2 _ p hp; simp at hp
  | cons p0 rest ih =>
    intro l2 hok p hp
    simp only [mapPairsExcept] at hok
    cases hb : h p0.1 p0.2 with
    | error e => rw [hb] at hok; cases hok
    | ok b0 =>
      rw [hb] at hok
      cases hr : mapPairsExcept h rest with
      | error e => rw [hr] at hok; cases hok
      | ok others =>
        rcases List.mem_cons.mp hp with hp | hp
        · exact ⟨b0, hp ▸ hb⟩
        · exact ih others hr p hp

/-- If some entry of the traversal fails and every possible failure of the
body is the error `E`, the whole traversal fails with `E`. -/
theorem mapPairsExcept_error {α β : Type} (h : ℕ → α → Except SimError β)
    (E : SimError) :
    ∀ (l : List (ℕ × α)), (∀ p ∈ l, ∀ e, h p.1 p.2 = .error e → e = E) →
      (∃ p ∈ l, ∀ b, h p.1 p.2 ≠ .ok b) →
      mapPairsExcept h l = .error E := by
  intro l hall hex
  induction l with
  | nil => simp at hex
  | cons p0 rest ih =>
    simp only [mapPairsExcept]
    cases hb : h p0.1 p0.2 with
    | error e =>
      rw [hall p0 (List.mem_cons_self p0 rest) e hb]
    | ok b0 =>
      obtain ⟨p, hp, hpf⟩ := hex
      rcases List.mem_cons.mp hp with hp | hp
      · exact absurd (hp ▸ hb) (hpf b0)
      · rw [ih (fun q hq e he => hall q (List.mem_cons_of_mem p0 hq) e he)
          ⟨p, hp, hpf⟩]

/-- Everything a successful Eigen segment addition guarantees: the added
vector had the segment's length, the segment was in range, and the result
differs from the input only on the segment, where the noise was added. -/
theorem addSegment_spec (v : List ObservationScalarType) (s len : ℕ)
    (noise w : List ObservationScalarType) (h : addSegment v s len noise = some w) :
    noise.length = len ∧ s + len ≤ v.length ∧ w.length = v.length ∧
    w.take s = v.take s ∧
    (w.drop s).take len = List.zipWith (· + ·) ((v.drop s).take len) noise ∧
    w.drop (s + len) = v.drop (s + len) := by
  unfold addSegment at h
  split_ifs at h with hc
  obtain ⟨hnl, hsl⟩ := hc
  obtain rfl : _ = w := Option.some.inj h
  have hA : (v.take s).length = s := by
    rw [List.length_take]
    omega
  have hseglen : ((v.drop s).take len).length = len := by
    rw [List.length_take, List.length_drop]
    omega
  have hB : (List.zipWith (· + ·) ((v.drop s).take len) noise).length = len := by
    rw [List.length_zipWith, hseglen, hnl]
    exact Nat.min_self len
  have hC : (v.drop (s + len)).length = v.length - (s + len) :=
    List.length_drop (s + len) v
  refine ⟨hnl, hsl, ?_, ?_, ?_, ?_⟩
  · simp only [List.length_append, hA, hB, hC]
    omega
  · rw [List.append_assoc, List.take_left' hA]
  · rw [List.append_assoc, List.drop_left' hA, List.take_left' hB]
  · have hAB : ((v.take s) ++ List.zipWith (· + ·) ((v.drop s).take len) noise).length
        = s + len := by
      rw [List.length_append, hA, hB]
    rw [List.drop_left' hAB]

/-- Rewriting a block through its bounding take. -/
theorem valueBlock_eq_take_drop (x : List ObservationScalarType) (i d : ℕ) :
    valueBlock x i d = (x.take ((i + 1) * d)).drop (i * d) := by
  unfold valueBlock
  rw [List.drop_take]
  have h1 : (i + 1) * d = i * d + d := Nat.succ_mul i d
  rw [h1, Nat.add_sub_cancel_left]

/-- Two vectors that agree beyond some prefix bound have equal later blocks. -/
theorem valueBlock_congr_suffix (x y : List ObservationScalarType) (s i d : ℕ)
    (hs : s ≤ i * d) (h : x.drop s = y.drop s) :
    valueBlock x i d = valueBlock y i d := by
  unfold valueBlock
  have hx : x.drop (i * d) = (x.drop s).drop (i * d - s) := by
    rw [List.drop_drop]
    congr 1
    omega
  have hy : y.drop (i * d) = (y.drop s).drop (i * d - s) := by
    rw [List.drop_drop]
    congr 1
    omega
  rw [hx, hy, h]

/-- Complete characterization of a successful run of the noise-adding sample
loop started at index `i`: the vector length is preserved, the prefix below
block `i` is untouched, every processed sample had its noise vector of the
block size (else Eigen would have aborted), and each block received exactly
its sample's noise. -/
theorem addNoiseLoop_ok_spec (d : ℕ) (f : NoiseFunction) :
    ∀ (ts : List TimeType) (i : ℕ) (v w : List ObservationScalarType),
      addNoiseLoop d f ts i v = .ok w →
      w.length = v.length ∧ (∀ m, m ≤ i * d → w.take m = v.take m) ∧
      ∀ j (hj : j < ts.length), (i + j) * d + d ≤ v.length ∧
        (f (ts.get ⟨j, hj⟩)).length = d ∧
        valueBlock w (i + j) d =
          List.zipWith (· + ·) (valueBlock v (i + j) d) (f (ts.get ⟨j, hj⟩)) := by
  intro ts
  induction ts with
  | nil =>
    intro i v w hok
    simp only [addNoiseLoop] at hok
    cases hok
    refine ⟨rfl, fun _ _ => rfl, fun j hj => absurd hj (by simp)⟩
  | cons t rest ih =>
    intro i v w hok
    simp only [addNoiseLoop] at hok
    split_ifs at hok with hcond
    cases hseg : addSegment v (i * d) d (f t) with
    | none => rw [hseg] at hok; cases hok
    | some v2 =>
      rw [hseg] at hok
      obtain ⟨hnl, hrange, hlen1, hpre1, hseg1, hsuf1⟩ :=
        addSegment_spec v (i * d) d (f t) v2 hseg
      obtain ⟨hlen2, hpre2, hblocks2⟩ := ih (i + 1) v2 w hok
      have hmono : i * d ≤ (i + 1) * d :=
        Nat.mul_le_mul_right d (Nat.le_succ i)
      refine ⟨hlen2.trans hlen1, ?_, ?_⟩
      · intro m hm
        have h2 : w.take m = v2.take m := hpre2 m (le_trans hm hmono)
        have h3 : v2.take m = (v2.take (i * d)).take m := by
          rw [List.take_take]
          congr 1
          omega
        have h4 : v.take m = (v.take (i * d)).take m := by
          rw [List.take_take]
          congr 1
          omega
        rw [h2, h3, hpre1, ← h4]
      · intro j hj
        match j with
        | 0 =>
          refine ⟨by simpa using hrange, hnl, ?_⟩
          have hw : valueBlock w (i + 0) d = valueBlock v2 (i + 0) d := by
            rw [valueBlock_eq_take_drop, valueBlock_eq_take_drop,
              hpre2 ((i + 0 + 1) * d) (Nat.mul_le_mul_right d (by omega))]
          rw [hw]
          simpa [valueBlock] using hseg1
        | j' + 1 =>
          have hj' : j' < rest.length := by
            simpa [Nat.succ_lt_succ_iff] using hj
          obtain ⟨hr2, hfl2, hb2⟩ := hblocks2 j' hj'
          have hidx : i + (j' + 1) = (i + 1) + j' := by omega
          have hsle : i * d + d ≤ ((i + 1) + j') * d := by
            calc i * d + d = (i + 1) * d := (Nat.succ_mul i d).symm
            _ ≤ ((i + 1) + j') * d := Nat.mul_le_mul_right d (by omega)
          have hv2v : valueBlock v2 ((i + 1) + j') d =
              valueBlock v ((i + 1) + j') d :=
            valueBlock_congr_suffix v2 v (i * d + d) _ d hsle hsuf1
          refine ⟨?_, ?_, ?_⟩
          · rw [hidx, ← hlen1]
            exact hr2
          · exact hfl2
          · rw [hidx, ← hv2v]
            exact hb2

/-- The sample loop never raises the sample-count error. -/
theorem addNoiseLoop_not_sampleCount (d : ℕ) (f : NoiseFunction) :
    ∀ (ts : List TimeType) (i : ℕ) (v : List ObservationScalarType),
      addNoiseLoop d f ts i v ≠ .error .inconsistentSampleCount := by
  intro ts
  induction ts with
  | nil => intro i v h; cases h
  | cons t rest ih =>
    intro i v h
    simp only [addNoiseLoop] at h
    split_ifs at h with hcond
    · cases h
    · cases hseg : addSegment v (i * d) d (f t) with
      | none => rw [hseg] at h; cases h
      | some v2 => rw [hseg] at h; exact ih (i + 1) v2 h

/-- Restarted past the first sample, the loop never raises the noise-size
error: the size check happens only at sample index `0`. -/
theorem addNoiseLoop_pos_not_noiseSize (d : ℕ) (f : NoiseFunction) :
    ∀ (ts : List TimeType) (i : ℕ) (v : List ObservationScalarType), i ≠ 0 →
      addNoiseLoop d f ts i v ≠ .error .inconsistentNoiseSize := by
  intro ts
  induction ts with
  | nil => intro i v _ h; cases h
  | cons t rest ih =>
    intro i v hi h
    simp only [addNoiseLoop] at h
    split_ifs at h with hcond
    · exact hi hcond.1
    · cases hseg : addSegment v (i * d) d (f t) with
      | none => rw [hseg] at h; cases h
      | some v2 => rw [hseg] at h; exact ih (i + 1) v2 (Nat.succ_ne_zero i) h

/-- Adding a zero vector to a segment changes nothing. -/
theorem zipWith_add_replicate_zero :
    ∀ (l : List ObservationScalarType) (n : ℕ), l.length ≤ n →
      List.zipWith (· + ·) l (List.replicate n (0 : ℤ)) = l := by
  intro l
  induction l with
  | nil => intro n _; simp
  | cons x rest ih =>
    intro n hn
    match n with
    | 0 => simp at hn
    | n' + 1 =>
      show (x + 0) :: List.zipWith (· + ·) rest (List.replicate n' 0) = x :: rest
      rw [add_zero, ih n' (by simpa [Nat.succ_le_succ_iff] using hn)]

/-- Reassembling a vector from the outside and the inside of a segment. -/
theorem take_seg_drop (v : List ObservationScalarType) (s len : ℕ) :
    v.take s ++ ((v.drop s).take len ++ v.drop (s + len)) = v := by
  have h1 : v.drop (s + len) = (v.drop s).drop len := by
    rw [List.drop_drop]
  rw [h1, List.take_append_drop, List.take_append_drop]

/-- A loop fed zero noise vectors of the block size leaves the value vector
unchanged and succeeds, provided all its blocks are in range. -/
theorem addNoiseLoop_zero (d : ℕ) (f : NoiseFunction) :
    ∀ (ts : List TimeType) (i : ℕ) (v : List ObservationScalarType),
      (∀ t ∈ ts, f t = List.replicate d 0) → (i + ts.length) * d ≤ v.length →
      addNoiseLoop d f ts i v = .ok v := by
  intro ts
  induction ts with
  | nil => intro i v _ _; rfl
  | cons t rest ih =>
    intro i v hz hb
    have hft : f t = List.replicate d 0 := hz t (List.mem_cons_self t rest)
    have hlen : (f t).length = d := by rw [hft, List.length_replicate]
    have hrange : i * d + d ≤ v.length := by
      calc i * d + d = (i + 1) * d := (Nat.succ_mul i d).symm
      _ ≤ (i + (t :: rest).length) * d := Nat.mul_le_mul_right d (by simp)
      _ ≤ v.length := hb
    have hseg : addSegment v (i * d) d (f t) = some v := by
      unfold addSegment
      rw [if_pos ⟨hlen, hrange⟩]
      have hseglen : ((v.drop (i * d)).take d).length ≤ d := by
        rw [List.length_take]
        omega
      rw [hft, zipWith_add_replicate_zero _ d hseglen, List.append_assoc,
        take_seg_drop]
    simp only [addNoiseLoop]
    rw [if_neg (by simp [hlen]), hseg]
    refine ih (i + 1) v (fun t2 ht2 => hz t2 (List.mem_cons_of_mem t ht2)) ?_
    calc (i + 1 + rest.length) * d = (i + (t :: rest).length) * d := by
          congr 1
          simp
          omega
    _ ≤ v.length := hb

/-- Element-wise: `(a + b) - a = b` on equally long vectors. -/
theorem zipWith_sub_add :
    ∀ (a b : List ObservationScalarType), a.length = b.length →
      List.zipWith (fun x y => x - y) (List.zipWith (· + ·) a b) a = b := by
  intro a
  induction a with
  | nil =>
    intro b hb
    obtain rfl : b = [] := List.eq_nil_of_length_eq_zero hb.symm
    rfl
  | cons x rest ih =>
    intro b hb
    match b with
    | [] => simp at hb
    | y :: brest =>
      simp only [List.zipWith, List.cons.injEq]
      exact ⟨add_sub_cancel_left x y, ih brest (by simpa using hb)⟩

/-- What a successful per-pair noise addition implies: the sample-count check
passed, a noise function was found, and the loop produced the values; times
and reference link end type are carried through. -/
theorem addObservationNoise_ok_spec (d : ℕ) (noiseFunctions : NoiseFunctionMap)
    (observableType : ObservableType) (linkEnds : LinkEnds)
    (nominalSet outSet : ObservationSet)
    (h : addObservationNoise d noiseFunctions observableType linkEnds nominalSet
      = .ok outSet) :
    outSet.times = nominalSet.times ∧
    outSet.linkEndType = nominalSet.linkEndType ∧
    nominalSet.times.length = nominalSet.values.length / d ∧
    ∃ f, lookupPair noiseFunctions observableType linkEnds = some f ∧
      addNoiseLoop d f nominalSet.times 0 nominalSet.values = .ok outSet.values := by
  unfold addObservationNoise at h
  split_ifs at h with hc
  cases h1 : lookupKey observableType noiseFunctions with
  | none => simp only [h1] at h; cases h
  | some innerMap =>
    simp only [h1] at h
    cases h2 : lookupKey linkEnds innerMap with
    | none => simp only [h2] at h; cases h
    | some f =>
      simp only [h2] at h
      cases h3 : addNoiseLoop d f nominalSet.times 0 nominalSet.values with
      | error e => simp only [h3] at h; cases h
      | ok noisyValues =>
        simp only [h3] at h
        obtain rfl : _ = outSet := Except.ok.inj h
        refine ⟨rfl, rfl, not_not.mp hc, f, ?_, h3⟩
        unfold lookupPair
        simp only [h1, h2]

/-- The canonical noise layer raises the sample-count error on a pair exactly
when the time count differs from the value count divided (with truncation) by
the catalog dimensionality. -/
theorem addObservationNoise_sampleCount_iff (d : ℕ)
    (noiseFunctions : NoiseFunctionMap) (observableType : ObservableType)
    (linkEnds : LinkEnds) (nominalSet : ObservationSet) :
    addObservationNoise d noiseFunctions observableType linkEnds nominalSet
      = .error .inconsistentSampleCount ↔
    nominalSet.times.length ≠ nominalSet.values.length / d := by
  constructor
  · intro h
    unfold addObservationNoise at h
    split_ifs at h with hc
    · exact hc
    cases h1 : lookupKey observableType noiseFunctions with
    | none => simp only [h1] at h; cases h
    | some innerMap =>
      simp only [h1] at h
      cases h2 : lookupKey linkEnds innerMap with
      | none => simp only [h2] at h; cases h
      | some f =>
        simp only [h2] at h
        cases h3 : addNoiseLoop d f nominalSet.times 0 nominalSet.values with
        | error e =>
          simp only [h3] at h
          obtain rfl : e = .inconsistentSampleCount := Except.error.inj h
          exact absurd h3 (addNoiseLoop_not_sampleCount d f _ 0 _)
        | ok noisyValues => simp only [h3] at h; cases h
  · intro h
    unfold addObservationNoise
    rw [if_pos h]

/-- With the sample-count check passed and the noise function resolved, the
canonical noise layer raises the noise-size error on a pair with a nonempty
time list exactly when the noise vector at the first time has the wrong
length: later samples' noise lengths are never compared against `d`. -/
theorem addObservationNoise_noiseSize_iff (d : ℕ)
    (noiseFunctions : NoiseFunctionMap) (observableType : ObservableType)
    (linkEnds : LinkEnds) (nominalSet : ObservationSet) (f : NoiseFunction)
    (t : TimeType) (rest : List TimeType)
    (hts : nominalSet.times = t :: rest)
    (hcount : nominalSet.times.length = nominalSet.values.length / d)
    (hf : lookupPair noiseFunctions observableType linkEnds = some f) :
    (addObservationNoise d noiseFunctions observableType linkEnds nominalSet
      = .error .inconsistentNoiseSize ↔ (f t).length ≠ d) := by
  unfold lookupPair at hf
  cases h1 : lookupKey observableType noiseFunctions with
  | none => simp only [h1] at hf; cases hf
  | some innerMap =>
    simp only [h1] at hf
    unfold addObservationNoise
    rw [if_neg (not_not.mpr hcount)]
    simp only [h1, hf, hts, addNoiseLoop]
    constructor
    · intro h
      by_contra hlen
      rw [if_neg (by simp [hlen])] at h
      cases hseg : addSegment nominalSet.values (0 * d) d (f t) with
      | none => simp only [hseg] at h; cases h
      | some v2 =>
        simp only [hseg] at h
        cases h3 : addNoiseLoop d f rest (0 + 1) v2 with
        | error e =>
          simp only [h3] at h
          obtain rfl : e = .inconsistentNoiseSize := Except.error.inj h
          exact addNoiseLoop_pos_not_noiseSize d f rest (0 + 1) v2
            (Nat.succ_ne_zero 0) h3
        | ok noisyValues => simp only [h3] at h; cases h
    · intro hlen
      rw [if_pos (by simp [hlen])]

/-- A successful nested traversal preserves the nested key structure. -/
theorem mapPairsNested_keyStructure {α β : Type}
    (h : ℕ → ℕ → α → Except SimError β) :
    ∀ (l : List (ℕ × List (ℕ × α))) (l2 : List (ℕ × List (ℕ × β))),
      mapPairsExcept (fun k inner => mapPairsExcept (h k) inner) l = .ok l2 →
      keyStructure l2 = keyStructure l := by
  intro l
  induction l with
  | nil =>
    intro l2 hok
    simp only [mapPairsExcept] at hok
    cases hok
    rfl
  | cons p rest ih =>
    intro l2 hok
    simp only [mapPairsExcept] at hok
    cases hb : mapPairsExcept (h p.1) p.2 with
    | error e => rw [hb] at hok; cases hok
    | ok inner2 =>
      rw [hb] at hok
      cases hr : mapPairsExcept
          (fun k inner => mapPairsExcept (h k) inner) rest with
      | error e => rw [hr] at hok; cases hok
      | ok others =>
        rw [hr] at hok
        obtain rfl : (p.1, inner2) :: others = l2 := Except.ok.inj hok
        simp only [keyStructure, List.map_cons, List.cons.injEq]
        exact ⟨by rw [mapPairsExcept_fst (h p.1) p.2 inner2 hb],
          ih others hr⟩

/-- Tracing a successful nested traversal backwards through a two-level
lookup. -/
theorem mapPairsNested_lookup {α β : Type} (h : ℕ → ℕ → α → Except SimError β)
    (l : List (ℕ × List (ℕ × α))) (l2 : List (ℕ × List (ℕ × β)))
    (k1 k2 : ℕ) (b : β)
    (hok : mapPairsExcept (fun k inner => mapPairsExcept (h k) inner) l = .ok l2)
    (hl : lookupPair l2 k1 k2 = some b) :
    ∃ a, lookupPair l k1 k2 = some a ∧ h k1 k2 a = .ok b := by
  unfold lookupPair at hl
  cases h1 : lookupKey k1 l2 with
  | none => rw [h1] at hl; cases hl
  | some inner2 =>
    rw [h1] at hl
    obtain ⟨inner, hki, hbody⟩ := mapPairsExcept_lookup _ l l2 k1 inner2 hok h1
    obtain ⟨a, hk2, hval⟩ := mapPairsExcept_lookup (h k1) inner inner2 k2 b hbody hl
    refine ⟨a, ?_, hval⟩
    unfold lookupPair
    simp only [hki, hk2]

/-- A nested traversal whose body succeeds identically on every entry returns
its input unchanged. -/
theorem mapPairsNested_id_ok {α : Type} (h : ℕ → ℕ → α → Except SimError α)
    (l : List (ℕ × List (ℕ × α)))
    (hall : ∀ p ∈ l, ∀ q ∈ p.2, h p.1 q.1 q.2 = .ok q.2) :
    mapPairsExcept (fun k inner => mapPairsExcept (h k) inner) l = .ok l :=
  mapPairsExcept_id_ok _ l (fun p hp =>
    mapPairsExcept_id_ok (h p.1) p.2 (fun q hq => hall p hp q hq))

/-- Every entry of a successful nested traversal succeeded. -/
theorem mapPairsNested_mem_ok {α β : Type} (h : ℕ → ℕ → α → Except SimError β)
    (l : List (ℕ × List (ℕ × α))) (l2 : List (ℕ × List (ℕ × β)))
    (hok : mapPairsExcept (fun k inner => mapPairsExcept (h k) inner) l = .ok l2) :
    ∀ p ∈ l, ∀ q ∈ p.2, ∃ b, h p.1 q.1 q.2 = .ok b := by
  intro p hp q hq
  obtain ⟨inner2, hinner⟩ :=
    mapPairsExcept_mem_ok _ l l2 hok p hp
  exact mapPairsExcept_mem_ok (h p.1) p.2 inner2 hinner q hq

/-- The outer key lists of maps with equal nested key structure agree. -/
theorem keyStructure_map_fst {α β : Type} (m : List (ℕ × List (ℕ × α)))
    (m2 : List (ℕ × List (ℕ × β))) (h : keyStructure m2 = keyStructure m) :
    m2.map Prod.fst = m.map Prod.fst := by
  have h2 : (keyStructure m2).map Prod.fst = (keyStructure m).map Prod.fst := by
    rw [h]
  simpa [keyStructure, List.map_map, Function.comp] using h2

/-- A lookup into a map transports along equality of nested key structures,
preserving the inner key list. -/
theorem keyStructure_lookup {α β : Type} :
    ∀ (m2 : List (ℕ × List (ℕ × β))) (m : List (ℕ × List (ℕ × α))),
      keyStructure m2 = keyStructure m →
      ∀ (k : ℕ) (inner2 : List (ℕ × β)), lookupKey k m2 = some inner2 →
      ∃ inner, lookupKey k m = some inner ∧
        inner.map Prod.fst = inner2.map Prod.fst := by
  intro m2
  induction m2 with
  | nil =>
    intro m _ k inner2 hl
    simp [lookupKey] at hl
  | cons p2 rest2 ih =>
    intro m hks k inner2 hl
    match m with
    | [] => simp [keyStructure] at hks
    | p :: rest =>
      simp only [keyStructure, List.map_cons, List.cons.injEq, Prod.mk.injEq] at hks
      obtain ⟨⟨hk1, hkeys⟩, htail⟩ := hks
      simp only [lookupKey] at hl ⊢
      by_cases hp : p2.1 = k
      · rw [if_pos hp] at hl
        obtain rfl : p2.2 = inner2 := Option.some.inj hl
        rw [if_pos (hk1.symm.trans hp)]
        exact ⟨p.2, rfl, hkeys.symm⟩
      · rw [if_neg hp] at hl
        rw [if_neg (fun hc => hp ((hk1.trans hc)))]
        exact ih rest htail k inner2 hl

/-- The i.i.d. broadcast of a scalar noise function is a constant vector of
that scalar (the embedding's noise functions are pure). -/
theorem getIID_eq_replicate (zf : ScalarNoiseFunction) (d : ℕ) (t : TimeType) :
    getIdenticallyAndIndependentlyDistributedNoise zf d t
      = List.replicate d (zf t) := by
  unfold getIdenticallyAndIndependentlyDistributedNoise
  rw [List.map_const', List.length_range]

/-- The noise-adding layer maps a noiseless result to itself when every pair
passes the sample-count check and its resolved noise function constantly
returns the zero vector of the catalog dimensionality. -/
theorem applyNoise_zero (cat : ObservableType → ℕ)
    (noiseFunctions : NoiseFunctionMap) (nominal : ObservationsMap)
    (hdiv : ∀ p ∈ nominal, ∀ q ∈ p.2,
      (q.2 : ObservationSet).times.length = q.2.values.length / cat p.1)
    (hz : ∀ p ∈ nominal, ∀ q ∈ p.2,
      ∃ f, lookupPair noiseFunctions p.1 q.1 = some f ∧
        ∀ t, f t = List.replicate (cat p.1) 0) :
    applyNoise cat noiseFunctions nominal = .ok nominal := by
  unfold applyNoise
  refine mapPairsNested_id_ok
    (fun k k2 a => addObservationNoise (cat k) noiseFunctions k k2 a) nominal ?_
  intro p hp q hq
  show addObservationNoise (cat p.1) noiseFunctions p.1 q.1 q.2 = .ok q.2
  obtain ⟨f, hf, hfz⟩ := hz p hp q hq
  have hd := hdiv p hp q hq
  have hbound : (0 + q.2.times.length) * cat p.1 ≤ q.2.values.length := by
    rw [Nat.zero_add, hd]
    exact Nat.div_mul_le_self q.2.values.length (cat p.1)
  have hloop : addNoiseLoop (cat p.1) f q.2.times 0 q.2.values = .ok q.2.values :=
    addNoiseLoop_zero (cat p.1) f q.2.times 0 q.2.values (fun t _ => hfz t) hbound
  unfold addObservationNoise
  rw [if_neg (not_not.mpr hd)]
  unfold lookupPair at hf
  cases h1 : lookupKey p.1 noiseFunctions with
  | none => simp only [h1] at hf; cases hf
  | some innerMap =>
    simp only [h1] at hf
    simp only [h1, hf, hloop]

/-- The canonical noisy simulation returns the noiseless result untouched
under the hypotheses of `applyNoise_zero`. -/
theorem simulateWithNoise_zero_ok (cat : ObservableType → ℕ)
    (settings : SettingsMap) (sims : SimulatorMap) (nominal : ObservationsMap)
    (noiseFunctions : NoiseFunctionMap)
    (h0 : simulateObservations settings sims = .ok nominal)
    (hdiv : ∀ p ∈ nominal, ∀ q ∈ p.2,
      (q.2 : ObservationSet).times.length = q.2.values.length / cat p.1)
    (hz : ∀ p ∈ nominal, ∀ q ∈ p.2,
      ∃ f, lookupPair noiseFunctions p.1 q.1 = some f ∧
        ∀ t, f t = List.replicate (cat p.1) 0) :
    simulateObservationsWithNoise cat settings sims noiseFunctions
      = .ok nominal := by
  unfold simulateObservationsWithNoise
  simp only [h0]
  exact applyNoise_zero cat noiseFunctions nominal hdiv hz

/-- Looking up any pair of the noiseless result in a settings-shaped nested
map whose inner values depend only on the observable type. -/
theorem lookupPair_keyed {β : Type} (settings : SettingsMap) (g : ℕ → β)
    (nominal : ObservationsMap)
    (hks : keyStructure nominal = keyStructure settings)
    (hnd : (settings.map Prod.fst).Nodup) :
    ∀ p ∈ nominal, ∀ q ∈ p.2,
      lookupPair
        (settings.map (fun p2 => (p2.1, p2.2.map (fun q2 => (q2.1, g p2.1)))))
        p.1 q.1 = some (g p.1) := by
  intro p hp q hq
  have hndn : (nominal.map Prod.fst).Nodup := by
    rw [keyStructure_map_fst settings nominal hks]
    exact hnd
  have hlookup : lookupKey p.1 nominal = some p.2 :=
    lookupKey_of_mem nominal p.1 p.2 hndn hp
  obtain ⟨innerS, hS, hkeys⟩ :=
    keyStructure_lookup nominal settings hks p.1 p.2 hlookup
  have h1 : lookupKey p.1
      (settings.map (fun p2 => (p2.1, p2.2.map (fun q2 => (q2.1, g p2.1)))))
      = some (innerS.map (fun q2 => (q2.1, g p.1))) := by
    rw [lookupKey_map_value
      (fun k inner => inner.map (fun q2 => (q2.1, g k))) settings p.1, hS]
    rfl
  have h2 : lookupKey q.1 (innerS.map (fun q2 => (q2.1, g p.1)))
      = some (g p.1) := by
    refine lookupKey_keyed (fun _ => g p.1) innerS q.1 ?_
    rw [hkeys]
    exact List.mem_map.mpr ⟨q, hq, rfl⟩
  unfold lookupPair
  simp only [h1, h2]

/-- The per-type broadcast loop succeeds and produces the fully broadcast
noise map when every requested observable type has a noise entry. -/
theorem perTypeBuilder_ok (noiseFunctions : List (ObservableType × NoiseFunction))
    (g : ObservableType → NoiseFunction) :
    ∀ (settings : SettingsMap),
      (∀ p ∈ settings, lookupKey p.1 noiseFunctions = some (g p.1)) →
      mapPairsExcept (fun observableType inner =>
        match lookupKey observableType noiseFunctions with
        | none => .error .missingObservableNoise
        | some noiseFunction => .ok (inner.map (fun q => (q.1, noiseFunction))))
        settings
      = .ok (settings.map (fun p => (p.1, p.2.map (fun q => (q.1, g p.1))))) := by
  intro settings
  induction settings with
  | nil => intro _; rfl
  | cons p rest ih =>
    intro hlook
    simp only [mapPairsExcept]
    rw [hlook p (List.mem_cons_self p rest)]
    rw [ih (fun q hq => hlook q (List.mem_cons_of_mem p hq))]
    rfl

/-- The per-type broadcast loop fails with the missing-observable error when
some requested observable type has no noise entry. -/
theorem perTypeBuilder_error (noiseFunctions : List (ObservableType × NoiseFunction))
    (settings : SettingsMap) (p0 : ObservableType ×
      List (LinkEnds × ObservationSimulationTimeSettings))
    (hp0 : p0 ∈ settings) (hmiss : lookupKey p0.1 noiseFunctions = none) :
    mapPairsExcept (fun observableType inner =>
      match lookupKey observableType noiseFunctions with
      | none => .error .missingObservableNoise
      | some noiseFunction => .ok (inner.map (fun q => (q.1, noiseFunction))))
      settings
    = .error .missingObservableNoise := by
  refine mapPairsExcept_error _ .missingObservableNoise settings ?_
    ⟨p0, hp0, ?_⟩
  · intro p _ e he
    cases h1 : lookupKey p.1 noiseFunctions with
    | none =>
      simp only [h1] at he
      exact (Except.error.inj he).symm
    | some f => simp only [h1] at he; cases he
  · intro b hb
    simp only [hmiss] at hb
    cases hb

/-- C7: for every flat observable → link ends → (times, reference link end
type) table and every simulator map, the flat-table overload of
`simulateObservations` returns exactly the result of first converting the
table with `createObservationSimulationTimeSettingsMap` and then calling the
settings-based overload (and so also fails in exactly the same cases). -/
theorem flat_table_overload_equivalent
    (observationsToSimulate : List (ObservableType ×
      List (LinkEnds × (List TimeType × LinkEndType))))
    (observationSimulators : SimulatorMap) :
    simulateObservationsFromTimes observationsToSimulate observationSimulators =
      simulateObservations
        (createObservationSimulationTimeSettingsMap observationsToSimulate)
        observationSimulators := rfl

/-- C3: the `simulateSingleObservationSet` overload taking a simulator plus
an explicit link ends value fails with the null-model error whenever the
simulator's registry holds no model for that link ends — before any model
evaluation, never returning an empty result. -/
theorem null_model_error_on_missing_registration
    (observationsToSimulate : ObservationSimulationTimeSettings)
    (simulator : ObservationSimulator) (linkEnds : LinkEnds)
    (h : lookupKey linkEnds simulator.observationModels = none) :
    simulateSingleObservationSetFromSimulator observationsToSimulate
      (some simulator) linkEnds = .error .nullModel := by
  unfold simulateSingleObservationSetFromSimulator
    ObservationSimulator.getObservationModel
  simp only [h]

theorem null_model_error_on_missing_registration_witness :
    simulateSingleObservationSetFromSimulator (.tabulated 0 [0, 1, 2])
      (some emptySimulator) 0 = .error .nullModel :=
  null_model_error_on_missing_registration (.tabulated 0 [0, 1, 2])
    emptySimulator 0 rfl

/-- C6: for every settings object whose variant is not the tabulated one,
the single-set simulator returns the empty result (empty value vector, empty
time list) and does not fail. -/
theorem unrecognized_settings_empty_result
    (observationsToSimulate : ObservationSimulationTimeSettings)
    (observationModel : ObservationModel)
    (h : ∀ linkEndType simulationTimes,
      observationsToSimulate ≠ .tabulated linkEndType simulationTimes) :
    simulateSingleObservationSet observationsToSimulate observationModel =
      { values := [], times := [], linkEndType := 0 } := by
  cases observationsToSimulate with
  | tabulated l ts => exact absurd rfl (h l ts)
  | base l => rfl

theorem unrecognized_settings_empty_result_witness :
    simulateSingleObservationSet (.base 3) sampleModel =
      { values := [], times := [], linkEndType := 0 } :=
  unrecognized_settings_empty_result (.base 3) sampleModel
    (fun _ _ hc => ObservationSimulationTimeSettings.noConfusion hc)

/-- C5: in the aggregating simulator, a pair whose simulator reports
dimensionality 1, 2 or 3 is dispatched to the size-matched evaluation path
(the `dynamic_cast` target of the same size), while any other reported
dimensionality makes the pair — and with it the whole aggregate call — fail
with the unsupported-dimension error: no generic fallback exists. -/
theorem dimension_dispatch (observationSimulators : SimulatorMap)
    (observableType : ObservableType) (linkEnds : LinkEnds)
    (settings : ObservationSimulationTimeSettings)
    (simulator : ObservationSimulator)
    (hsim : lookupKey observableType observationSimulators = some simulator) :
    ((simulator.reportedSize linkEnds = 1 ∨ simulator.reportedSize linkEnds = 2
        ∨ simulator.reportedSize linkEnds = 3) →
      simulator.reportedSize linkEnds = (simulator.observationSize : Int) →
      simulateObservationsPair observationSimulators observableType linkEnds
          settings =
        simulateSingleObservationSetFromSimulator settings (some simulator)
          linkEnds) ∧
    (simulator.reportedSize linkEnds ≠ 1 → simulator.reportedSize linkEnds ≠ 2 →
      simulator.reportedSize linkEnds ≠ 3 →
      simulateObservationsPair observationSimulators observableType linkEnds
          settings =
        .error (.unsupportedDimension (simulator.reportedSize linkEnds))) ∧
    (∀ (observationsToSimulate : SettingsMap) inner,
      (observableType, inner) ∈ observationsToSimulate →
      (linkEnds, settings) ∈ inner →
      simulator.reportedSize linkEnds ≠ 1 → simulator.reportedSize linkEnds ≠ 2 →
      simulator.reportedSize linkEnds ≠ 3 →
      ∀ m, simulateObservations observationsToSimulate observationSimulators
        ≠ .ok m) := by
  refine ⟨?_, ?_, ?_⟩
  · intro hdim hcast
    unfold simulateObservationsPair
    simp only [hsim]
    rcases hdim with h1 | h2 | h3
    · have hn : simulator.observationSize = 1 := by
        rw [h1] at hcast
        exact_mod_cast hcast.symm
      rw [if_pos h1, if_pos hn]
    · have hn : simulator.observationSize = 2 := by
        rw [h2] at hcast
        exact_mod_cast hcast.symm
      have hne1 : simulator.reportedSize linkEnds ≠ 1 := by
        rw [h2]
        decide
      rw [if_neg hne1, if_pos h2, if_pos hn]
    · have hn : simulator.observationSize = 3 := by
        rw [h3] at hcast
        exact_mod_cast hcast.symm
      have hne1 : simulator.reportedSize linkEnds ≠ 1 := by
        rw [h3]
        decide
      have hne2 : simulator.reportedSize linkEnds ≠ 2 := by
        rw [h3]
        decide
      rw [if_neg hne1, if_neg hne2, if_pos h3, if_pos hn]
  · intro hn1 hn2 hn3
    unfold simulateObservationsPair
    simp only [hsim]
    rw [if_neg hn1, if_neg hn2, if_neg hn3]
  · intro stg inner hmem1 hmem2 hn1 hn2 hn3 m hok
    unfold simulateObservations at hok
    obtain ⟨b, hb⟩ := mapPairsNested_mem_ok
      (fun k k2 a => simulateObservationsPair observationSimulators k k2 a)
      stg m hok (observableType, inner) hmem1 (linkEnds, settings) hmem2
    unfold simulateObservationsPair at hb
    simp only [hsim] at hb
    rw [if_neg hn1, if_neg hn2, if_neg hn3] at hb
    cases hb

theorem dimension_dispatch_witness :
    simulateObservationsPair [(0, sizeFourSimulator)] 0 0 (.tabulated 0 [0])
      = .error (.unsupportedDimension 4) :=
  (dimension_dispatch [(0, sizeFourSimulator)] 0 0 (.tabulated 0 [0])
    sizeFourSimulator rfl).2.1 (by decide) (by decide) (by decide)

/-- C10: a successful settings-based aggregate simulation returns exactly the
(observable type, link ends) key pairs of the input time-settings map, in
order, with none dropped or added; and a successful canonical noisy
simulation has exactly the key structure of the noiseless result it was
derived from. -/
theorem key_structure_preserved (observationsToSimulate : SettingsMap)
    (observationSimulators : SimulatorMap)
    (getObservableSize : ObservableType → ℕ)
    (noiseFunctions : NoiseFunctionMap) (noiseFree noisy : ObservationsMap)
    (h0 : simulateObservations observationsToSimulate observationSimulators
      = .ok noiseFree) :
    keyStructure noiseFree = keyStructure observationsToSimulate ∧
    (simulateObservationsWithNoise getObservableSize observationsToSimulate
        observationSimulators noiseFunctions = .ok noisy →
      keyStructure noisy = keyStructure noiseFree) := by
  constructor
  · exact mapPairsNested_keyStructure
      (fun k k2 a => simulateObservationsPair observationSimulators k k2 a)
      observationsToSimulate noiseFree h0
  · intro hN
    unfold simulateObservationsWithNoise at hN
    simp only [h0] at hN
    exact mapPairsNested_keyStructure
      (fun k k2 a =>
        addObservationNoise (getObservableSize k) noiseFunctions k k2 a)
      noiseFree noisy hN

theorem key_structure_preserved_witness :
    keyStructure sampleNominal = keyStructure sampleSettings ∧
    (simulateObservationsWithNoise (fun _ => 1) sampleSettings
        sampleSimulators sampleNoise = .ok sampleNoisy →
      keyStructure sampleNoisy = keyStructure sampleNominal) :=
  key_structure_preserved sampleSettings sampleSimulators (fun _ => 1)
    sampleNoise sampleNominal sampleNoisy (by decide)

/-- C9: per pair, with the sample-count check passed and the noise function
resolved, the canonical noise layer raises the noise-size error exactly when
the noise vector at the first time has length different from the observable's
catalog dimensionality; the loop restarted past index 0 can never raise that
error whatever the later noise lengths are, and on an empty time list the
loop succeeds immediately without any size check. -/
theorem noise_size_checked_first_sample_only
    (getObservableSize : ObservableType → ℕ) (noiseFunctions : NoiseFunctionMap)
    (observableType : ObservableType) (linkEnds : LinkEnds)
    (nominalSet : ObservationSet) (f : NoiseFunction) (t : TimeType)
    (rest : List TimeType) (hts : nominalSet.times = t :: rest)
    (hcount : nominalSet.times.length
      = nominalSet.values.length / getObservableSize observableType)
    (hf : lookupPair noiseFunctions observableType linkEnds = some f) :
    (addObservationNoise (getObservableSize observableType) noiseFunctions
        observableType linkEnds nominalSet = .error .inconsistentNoiseSize ↔
      (f t).length ≠ getObservableSize observableType) ∧
    (∀ (laterTimes : List TimeType) (i : ℕ) (v : List ObservationScalarType),
      1 ≤ i →
      addNoiseLoop (getObservableSize observableType) f laterTimes i v
        ≠ .error .inconsistentNoiseSize) ∧
    (∀ (v : List ObservationScalarType),
      addNoiseLoop (getObservableSize observableType) f [] 0 v = .ok v) := by
  refine ⟨addObservationNoise_noiseSize_iff (getObservableSize observableType)
    noiseFunctions observableType linkEnds nominalSet f t rest hts hcount hf,
    ?_, ?_⟩
  · intro laterTimes i v hi
    exact addNoiseLoop_pos_not_noiseSize (getObservableSize observableType) f
      laterTimes i v (by omega)
  · intro v
    rfl

theorem noise_size_checked_first_sample_only_witness :
    (addObservationNoise 1 echoNoise 0 0 twoSampleSet
        = .error .inconsistentNoiseSize ↔
      (echoNoiseFunction 10).length ≠ 1) ∧
    (∀ (laterTimes : List TimeType) (i : ℕ) (v : List ObservationScalarType),
      1 ≤ i →
      addNoiseLoop 1 echoNoiseFunction laterTimes i v
        ≠ .error .inconsistentNoiseSize) ∧
    (∀ (v : List ObservationScalarType),
      addNoiseLoop 1 echoNoiseFunction [] 0 v = .ok v) :=
  noise_size_checked_first_sample_only (fun _ => 1) echoNoise 0 0
    twoSampleSet echoNoiseFunction 10 [11] rfl (by decide) rfl

/-- C4 counterexample: under catalog dimensionality 2, a noiseless pair with
1 time and 3 scalar values has `number_of_times * d = 2 ≠ 3 =
number_of_scalar_values`, yet the canonical noisy simulation succeeds — the
code's check `times.size() != values.rows() / d` uses truncating integer
division (`1 = 3 / 2`), so it does not fire, refuting the claim that the call
fails whenever `times * d ≠ values`. -/
theorem sample_count_check_cex :
    simulateObservations singleTimeSettings tripleSimulators
      = .ok tripleNominal ∧
    1 * 2 ≠ 3 ∧
    simulateObservationsWithNoise (fun _ => 2) singleTimeSettings
      tripleSimulators twoChannelNoise = .ok tripleNoisy :=
  ⟨by decide, by decide, by decide⟩

/-- C4 (amended): the per-pair body of the canonical
`simulateObservationsWithNoise` raises the inconsistent-sample-count error
precisely when `number_of_times ≠ number_of_scalar_values / d` with C++
truncating integer division — not when `number_of_times * d ≠
number_of_scalar_values`. -/
theorem sample_count_check_truncated_division
    (getObservableSize : ObservableType → ℕ) (noiseFunctions : NoiseFunctionMap)
    (observableType : ObservableType) (linkEnds : LinkEnds)
    (nominalSet : ObservationSet) :
    addObservationNoise (getObservableSize observableType) noiseFunctions
        observableType linkEnds nominalSet = .error .inconsistentSampleCount ↔
      nominalSet.times.length
        ≠ nominalSet.values.length / getObservableSize observableType :=
  addObservationNoise_sampleCount_iff (getObservableSize observableType)
    noiseFunctions observableType linkEnds nominalSet

/-- C1: whenever the canonical noisy simulation succeeds, then for every
(observable type, link ends) pair of its result the noisy value vector
differs from the noiseless one exactly by the noise function's value at the
corresponding time, block by block, and the times and reference link end
type are carried through unchanged from the noiseless result. -/
theorem noise_addition_sample_local (getObservableSize : ObservableType → ℕ)
    (observationsToSimulate : SettingsMap)
    (observationSimulators : SimulatorMap) (noiseFunctions : NoiseFunctionMap)
    (noisy noiseFree : ObservationsMap)
    (hN : simulateObservationsWithNoise getObservableSize observationsToSimulate
      observationSimulators noiseFunctions = .ok noisy)
    (h0 : simulateObservations observationsToSimulate observationSimulators
      = .ok noiseFree) :
    ∀ (observableType : ObservableType) (linkEnds : LinkEnds)
      (noisySet : ObservationSet),
      lookupPair noisy observableType linkEnds = some noisySet →
      ∃ nominalSet f,
        lookupPair noiseFree observableType linkEnds = some nominalSet ∧
        lookupPair noiseFunctions observableType linkEnds = some f ∧
        noisySet.times = nominalSet.times ∧
        noisySet.linkEndType = nominalSet.linkEndType ∧
        ∀ i (hi : i < nominalSet.times.length),
          List.zipWith (fun a b => a - b)
            (valueBlock noisySet.values i (getObservableSize observableType))
            (valueBlock nominalSet.values i (getObservableSize observableType))
          = f (nominalSet.times.get ⟨i, hi⟩) := by
  intro observableType linkEnds noisySet hlook
  unfold simulateObservationsWithNoise at hN
  simp only [h0] at hN
  unfold applyNoise at hN
  obtain ⟨nominalSet, hnom, hadd⟩ := mapPairsNested_lookup
    (fun k k2 a => addObservationNoise (getObservableSize k) noiseFunctions k k2 a)
    noiseFree noisy observableType linkEnds noisySet hN hlook
  obtain ⟨htimes, hlink, hcount, f, hf, hloop⟩ :=
    addObservationNoise_ok_spec (getObservableSize observableType)
      noiseFunctions observableType linkEnds nominalSet noisySet hadd
  refine ⟨nominalSet, f, hnom, hf, htimes, hlink, ?_⟩
  intro i hi
  obtain ⟨hlen, hpre, hblocks⟩ := addNoiseLoop_ok_spec
    (getObservableSize observableType) f nominalSet.times 0 nominalSet.values
    noisySet.values hloop
  obtain ⟨hrange, hflen, hblock⟩ := hblocks i hi
  rw [Nat.zero_add] at hblock hrange
  have hblen : (valueBlock nominalSet.values i
      (getObservableSize observableType)).length
      = getObservableSize observableType := by
    unfold valueBlock
    rw [List.length_take, List.length_drop]
    omega
  rw [hblock]
  exact zipWith_sub_add _ _ (by rw [hblen, hflen])

theorem noise_addition_sample_local_witness :
    ∃ nominalSet f,
      lookupPair sampleNominal 0 0 = some nominalSet ∧
      lookupPair sampleNoise 0 0 = some f ∧
      sampleNoisySet.times = nominalSet.times ∧
      sampleNoisySet.linkEndType = nominalSet.linkEndType ∧
      ∀ i (hi : i < nominalSet.times.length),
        List.zipWith (fun a b => a - b) (valueBlock sampleNoisySet.values i 1)
          (valueBlock nominalSet.values i 1)
        = f (nominalSet.times.get ⟨i, hi⟩) :=
  noise_addition_sample_local (fun _ => 1) sampleSettings sampleSimulators
    sampleNoise sampleNoisy sampleNominal (by decide) (by decide) 0 0
    sampleNoisySet (by decide)

/-- C8: for both per-observable-type noise entry points (vector-valued and
scalar), an observable type present in the time-settings map but absent from
the supplied noise map makes the whole call fail with the missing-observable
error (in C++, the `std::map::at` lookup at the spec's
`MissingObservableNoiseError` site throws), so no result is returned for any
pair. -/
theorem missing_observable_noise_error (getObservableSize : ObservableType → ℕ)
    (observationsToSimulate : SettingsMap)
    (observationSimulators : SimulatorMap)
    (vectorNoiseFunctions : List (ObservableType × NoiseFunction))
    (scalarNoiseFunctions : List (ObservableType × ScalarNoiseFunction))
    (observableType : ObservableType)
    (inner : List (LinkEnds × ObservationSimulationTimeSettings))
    (hmem : (observableType, inner) ∈ observationsToSimulate)
    (hv : lookupKey observableType vectorNoiseFunctions = none)
    (hs : lookupKey observableType scalarNoiseFunctions = none) :
    simulateObservationsWithNoisePerType getObservableSize
        observationsToSimulate observationSimulators vectorNoiseFunctions
      = .error .missingObservableNoise ∧
    simulateObservationsWithNoisePerTypeScalar getObservableSize
        observationsToSimulate observationSimulators scalarNoiseFunctions
      = .error .missingObservableNoise := by
  constructor
  · unfold simulateObservationsWithNoisePerType
    rw [perTypeBuilder_error vectorNoiseFunctions observationsToSimulate
      (observableType, inner) hmem hv]
  · unfold simulateObservationsWithNoisePerTypeScalar
      simulateObservationsWithNoisePerType
    have hv2 : lookupKey observableType (scalarNoiseFunctions.map (fun p =>
        (p.1, getIdenticallyAndIndependentlyDistributedNoise p.2
          (getObservableSize p.1)))) = none := by
      rw [lookupKey_map_value (fun k zf =>
        getIdenticallyAndIndependentlyDistributedNoise zf (getObservableSize k))
        scalarNoiseFunctions observableType, hs]
      rfl
    rw [perTypeBuilder_error _ observationsToSimulate
      (observableType, inner) hmem hv2]

theorem missing_observable_noise_error_witness :
    simulateObservationsWithNoisePerType (fun _ => 1) sampleSettings
        sampleSimulators [] = .error .missingObservableNoise ∧
    simulateObservationsWithNoisePerTypeScalar (fun _ => 1) sampleSettings
        sampleSimulators [] = .error .missingObservableNoise :=
  missing_observable_noise_error (fun _ => 1) sampleSettings sampleSimulators
    [] [] 0 [(0, .tabulated 0 [0, 1, 2])] (by decide) rfl rfl

/-- C2 counterexample: an input on which the noiseless aggregate simulation
succeeds (one pair, 1 time, 1 scalar value) but on which a constant-zero
scalar noise function supplied through the global entry point does not
reproduce the noiseless result: with catalog dimensionality 2 and a simulator
of size 1, the noise layer's sample-count check `1 ≠ 1 / 2` fires, so the
noisy call fails instead of returning the noiseless result. -/
theorem zero_noise_entry_points_cex :
    simulateObservations singleTimeSettings constSimulators
      = .ok constNominal ∧
    simulateObservationsWithNoiseGlobal (fun _ => 2) singleTimeSettings
      constSimulators (fun _ => 0) = .error .inconsistentSampleCount :=
  ⟨by decide, by decide⟩

/-- C2 (amended): provided the time-settings map has `std::map`-unique outer
keys and every pair of the noiseless result passes the noise layer's
sample-count check (`times = values / d` with truncating division, as holds
whenever the simulators' dimensionalities agree with the catalog), supplying
a constant-zero scalar (or constant-zero vector of the catalog
dimensionality) noise function through any of the four entry points yields a
result identical to the noiseless aggregate simulation. -/
theorem zero_noise_entry_points_equivalent
    (getObservableSize : ObservableType → ℕ)
    (observationsToSimulate : SettingsMap)
    (observationSimulators : SimulatorMap) (noiseFree : ObservationsMap)
    (h0 : simulateObservations observationsToSimulate observationSimulators
      = .ok noiseFree)
    (hnd : (observationsToSimulate.map Prod.fst).Nodup)
    (hdiv : ∀ p ∈ noiseFree, ∀ q ∈ p.2, (q.2 : ObservationSet).times.length
      = q.2.values.length / getObservableSize p.1) :
    simulateObservationsWithNoise getObservableSize observationsToSimulate
        observationSimulators
        (zeroVectorNoiseFunctions getObservableSize observationsToSimulate)
      = .ok noiseFree ∧
    simulateObservationsWithNoisePerPairScalar getObservableSize
        observationsToSimulate observationSimulators
        (zeroScalarPairNoiseFunctions observationsToSimulate)
      = .ok noiseFree ∧
    simulateObservationsWithNoisePerTypeScalar getObservableSize
        observationsToSimulate observationSimulators
        (zeroScalarTypeNoiseFunctions observationsToSimulate)
      = .ok noiseFree ∧
    simulateObservationsWithNoiseGlobal getObservableSize
        observationsToSimulate observationSimulators (fun _ => 0)
      = .ok noiseFree := by
  have hks : keyStructure noiseFree = keyStructure observationsToSimulate :=
    mapPairsNested_keyStructure
      (fun k k2 a => simulateObservationsPair observationSimulators k k2 a)
      observationsToSimulate noiseFree h0
  have hzg : ∀ (g : ℕ → NoiseFunction),
      (∀ k t, g k t = List.replicate (getObservableSize k) 0) →
      ∀ p ∈ noiseFree, ∀ q ∈ p.2,
        ∃ f, lookupPair (observationsToSimulate.map (fun p2 =>
            (p2.1, p2.2.map (fun q2 => (q2.1, g p2.1))))) p.1 q.1 = some f ∧
          ∀ t, f t = List.replicate (getObservableSize p.1) 0 := by
    intro g hg p hp q hq
    exact ⟨g p.1, lookupPair_keyed observationsToSimulate g noiseFree hks hnd
      p hp q hq, hg p.1⟩
  have hA : simulateObservationsWithNoise getObservableSize
      observationsToSimulate observationSimulators
      (zeroVectorNoiseFunctions getObservableSize observationsToSimulate)
      = .ok noiseFree := by
    refine simulateWithNoise_zero_ok getObservableSize observationsToSimulate
      observationSimulators noiseFree _ h0 hdiv ?_
    exact hzg (fun k => fun _ => List.replicate (getObservableSize k) 0)
      (fun k t => rfl)
  have hC : simulateObservationsWithNoisePerTypeScalar getObservableSize
      observationsToSimulate observationSimulators
      (zeroScalarTypeNoiseFunctions observationsToSimulate) = .ok noiseFree := by
    unfold simulateObservationsWithNoisePerTypeScalar
      simulateObservationsWithNoisePerType
    have hNT : ∀ p ∈ observationsToSimulate, lookupKey p.1
        ((zeroScalarTypeNoiseFunctions observationsToSimulate).map (fun p2 =>
          (p2.1, getIdenticallyAndIndependentlyDistributedNoise p2.2
            (getObservableSize p2.1))))
        = some (getIdenticallyAndIndependentlyDistributedNoise (fun _ => 0)
            (getObservableSize p.1)) := by
      intro p hp
      have hmem : p.1 ∈ observationsToSimulate.map Prod.fst :=
        List.mem_map.mpr ⟨p, hp, rfl⟩
      have h1 : lookupKey p.1 (zeroScalarTypeNoiseFunctions
          observationsToSimulate) = some (fun _ => (0 : ℤ)) := by
        unfold zeroScalarTypeNoiseFunctions
        exact lookupKey_keyed (fun _ => (fun _ => (0 : ℤ)))
          observationsToSimulate p.1 hmem
      rw [lookupKey_map_value (fun k zf =>
        getIdenticallyAndIndependentlyDistributedNoise zf (getObservableSize k))
        (zeroScalarTypeNoiseFunctions observationsToSimulate) p.1, h1]
      rfl
    rw [perTypeBuilder_ok _ (fun k =>
      getIdenticallyAndIndependentlyDistributedNoise (fun _ => 0)
        (getObservableSize k)) observationsToSimulate hNT]
    refine simulateWithNoise_zero_ok getObservableSize observationsToSimulate
      observationSimulators noiseFree _ h0 hdiv ?_
    refine hzg (fun k => getIdenticallyAndIndependentlyDistributedNoise
      (fun _ => 0) (getObservableSize k)) ?_
    intro k t
    show getIdenticallyAndIndependentlyDistributedNoise (fun _ => 0)
      (getObservableSize k) t = List.replicate (getObservableSize k) 0
    rw [getIID_eq_replicate]
  have hB : simulateObservationsWithNoisePerPairScalar getObservableSize
      observationsToSimulate observationSimulators
      (zeroScalarPairNoiseFunctions observationsToSimulate) = .ok noiseFree := by
    unfold simulateObservationsWithNoisePerPairScalar
    have hNFB : (zeroScalarPairNoiseFunctions observationsToSimulate).map
        (fun p => (p.1, p.2.map (fun q =>
          (q.1, getIdenticallyAndIndependentlyDistributedNoise q.2
            (getObservableSize p.1)))))
        = observationsToSimulate.map (fun p2 => (p2.1, p2.2.map (fun q2 =>
            (q2.1, getIdenticallyAndIndependentlyDistributedNoise (fun _ => 0)
              (getObservableSize p2.1))))) := by
      unfold zeroScalarPairNoiseFunctions
      rw [List.map_map]
      refine List.map_congr_left ?_
      intro p _
      simp only [Function.comp_apply]
      rw [List.map_map]
      rfl
    rw [hNFB]
    refine simulateWithNoise_zero_ok getObservableSize observationsToSimulate
      observationSimulators noiseFree _ h0 hdiv ?_
    refine hzg (fun k => getIdenticallyAndIndependentlyDistributedNoise
      (fun _ => 0) (getObservableSize k)) ?_
    intro k t
    show getIdenticallyAndIndependentlyDistributedNoise (fun _ => 0)
      (getObservableSize k) t = List.replicate (getObservableSize k) 0
    rw [getIID_eq_replicate]
  exact ⟨hA, hB, hC, hC⟩

theorem zero_noise_entry_points_equivalent_witness :
    simulateObservationsWithNoise (fun _ => 1) sampleSettings
        sampleSimulators
        (zeroVectorNoiseFunctions (fun _ => 1) sampleSettings)
      = .ok sampleNominal ∧
    simulateObservationsWithNoisePerPairScalar (fun _ => 1) sampleSettings
        sampleSimulators (zeroScalarPairNoiseFunctions sampleSettings)
      = .ok sampleNominal ∧
    simulateObservationsWithNoisePerTypeScalar (fun _ => 1) sampleSettings
        sampleSimulators (zeroScalarTypeNoiseFunctions sampleSettings)
      = .ok sampleNominal ∧
    simulateObservationsWithNoiseGlobal (fun _ => 1) sampleSettings
        sampleSimulators (fun _ => 0) = .ok sampleNominal :=
  zero_noise_entry_points_equivalent (fun _ => 1) sampleSettings
    sampleSimulators sampleNominal (by decide) (by decide) (by decide)
